import Mathlib

/-!
Verification of the original algorithmic logic of the `driver-examples`
repository: the servo sweep and RGB rainbow generators of
`pca9685-pwm-rgb-led-servos.rs`, the melody sequencer of
`ad9833-midi-player-bp.rs`, and the error-handling / loop-counter behaviour of
the sensor display examples.  Machine integers are modelled as `Nat`/`Int`
with explicit two's-complement casts where the source performs them.
-/

/-! ### Servo sweep generator (pca9685-pwm-rgb-led-servos.rs) -/

/-- Reinterpretation of a `u16` bit pattern as an `i16` (Rust `as i16`). -/
def i16OfU16 (n : Nat) : Int :=
  if n < 32768 then (n : Int) else (n : Int) - 65536

/-- Truncation of an integer to a `u16` bit pattern (Rust `as u16`). -/
def u16OfI16 (z : Int) : Nat :=
  (z % 65536).toNat

/-- State of `Servo`: the current pulse width (`u16`) and the step
direction (`i16`, mutated by `next`). -/
structure ServoState where
  current : Nat
  factor : Int
  deriving Repr, DecidableEq

/-- `Servo::MIN`, the minimum pulse length. -/
def servoMin : Nat := 132

/-- `Servo::MAX`, the maximum pulse length. -/
def servoMax : Nat := 608

/-- `Servo::new(offset)`: starts at `offset` with factor `2`. -/
def servoNew (offset : Nat) : ServoState :=
  { current := offset, factor := 2 }

/-- The direction factor after the two bound checks at the top of
`<Servo as Iterator>::next`. -/
def servoFactor (s : ServoState) : Int :=
  if servoMax ≤ s.current then -2
  else if s.current ≤ servoMin then 2
  else s.factor

/-- `<Servo as Iterator>::next`: reverse the direction at the bounds, then
step `current` by the (possibly updated) factor via the `i16`/`u16` casts of
the source, and return the new `current`. -/
def servoNext (s : ServoState) : Option Nat × ServoState :=
  let c : Nat := u16OfI16 (i16OfU16 s.current + servoFactor s)
  (some c, { current := c, factor := servoFactor s })

/-- The servo state after `n` calls to `next`. -/
def servoRun : Nat → ServoState → ServoState
  | 0, s => s
  | n + 1, s => servoRun n (servoNext s).2

lemma u16OfI16_of_bounds (z : Int) (h0 : 0 ≤ z) (h1 : z < 65536) :
    u16OfI16 z = z.toNat := by
  unfold u16OfI16
  rw [Int.emod_eq_of_lt h0 h1]

/-- Invariant actually maintained by the servo sweep: the pulse width can
overshoot each configured bound by up to one step. -/
def ServoInv (s : ServoState) : Prop :=
  131 ≤ s.current ∧ s.current ≤ 609 ∧ (s.factor = 2 ∨ s.factor = -2)

lemma servoNext_current_eq (s : ServoState) :
    (servoNext s).2.current = u16OfI16 (i16OfU16 s.current + servoFactor s) := rfl

lemma servoNext_factor_eq (s : ServoState) :
    (servoNext s).2.factor = servoFactor s := rfl

lemma servoNext_out_eq (s : ServoState) :
    (servoNext s).1 = some (servoNext s).2.current := rfl

lemma servoFactor_cases {s : ServoState} (h3 : s.factor = 2 ∨ s.factor = -2) :
    (608 ≤ s.current ∧ servoFactor s = -2) ∨
    (s.current ≤ 132 ∧ servoFactor s = 2) ∨
    (133 ≤ s.current ∧ s.current ≤ 607 ∧
      (servoFactor s = 2 ∨ servoFactor s = -2)) := by
  unfold servoFactor servoMax servoMin
  split_ifs with hA hB
  · exact Or.inl ⟨hA, rfl⟩
  · exact Or.inr (Or.inl ⟨hB, rfl⟩)
  · exact Or.inr (Or.inr ⟨by omega, by omega, h3⟩)

lemma servoNext_inv {s : ServoState} (h : ServoInv s) :
    ServoInv (servoNext s).2 ∧ (servoNext s).1 = some (servoNext s).2.current := by
  obtain ⟨h1, h2, h3⟩ := h
  have hc : i16OfU16 s.current = (s.current : Int) := by
    unfold i16OfU16
    rw [if_pos (by omega)]
  refine ⟨?_, servoNext_out_eq s⟩
  unfold ServoInv
  rw [servoNext_current_eq, servoNext_factor_eq, hc]
  rcases servoFactor_cases h3 with ⟨ha, hf⟩ | ⟨ha, hf⟩ | ⟨ha, hb, hf⟩
  · rw [hf, u16OfI16_of_bounds _ (by omega) (by omega)]
    exact ⟨by omega, by omega, Or.inr rfl⟩
  · rw [hf, u16OfI16_of_bounds _ (by omega) (by omega)]
    exact ⟨by omega, by omega, Or.inl rfl⟩
  · have hz0 : (0 : Int) ≤ (s.current : Int) + servoFactor s := by
      rcases hf with hf | hf <;> rw [hf] <;> omega
    have hz1 : (s.current : Int) + servoFactor s < 65536 := by
      rcases hf with hf | hf <;> rw [hf] <;> omega
    rw [u16OfI16_of_bounds _ hz0 hz1]
    refine ⟨?_, ?_, hf⟩ <;> rcases hf with hf | hf <;> rw [hf] <;> omega

lemma servoRun_inv {s : ServoState} (h : ServoInv s) (n : Nat) :
    ServoInv (servoRun n s) := by
  induction n generalizing s with
  | zero => exact h
  | succ n ih => exact ih (servoNext_inv h).1

/-- C1 counterexample: starting at offset 607, which lies in the configured
interval `[132, 608]`, the very first call to `Servo::next` returns 609,
which is outside that interval. -/
theorem servo_interval_counterexample :
    (132 ≤ 607 ∧ 607 ≤ 608) ∧
    (servoNext (servoNew 607)).1 = some 609 ∧
    ¬ (132 ≤ 609 ∧ 609 ≤ 608) := by
  decide

/-- C1 (amended): for every starting offset in `[132, 608]`, every value
returned by any number of successive calls to `Servo::next` lies in the
closed interval `[131, 609]` (the sweep can overshoot each configured bound
by one 2-unit step when started off the even-parity grid). -/
theorem servo_sweep_bounded (offset n : Nat)
    (h1 : 132 ≤ offset) (h2 : offset ≤ 608) :
    ∃ v, (servoNext (servoRun n (servoNew offset))).1 = some v ∧
      131 ≤ v ∧ v ≤ 609 := by
  have hinv : ServoInv (servoNew offset) :=
    ⟨(by omega : 131 ≤ offset), (by omega : offset ≤ 609), Or.inl rfl⟩
  have hrun := servoRun_inv hinv n
  obtain ⟨hinv', hout⟩ := servoNext_inv hrun
  exact ⟨_, hout, hinv'.1, hinv'.2.1⟩

/-- Witness for `servo_sweep_bounded` at offset 132 after 0 calls. -/
theorem servo_sweep_bounded_witness :
    ∃ v, (servoNext (servoRun 0 (servoNew 132))).1 = some v ∧
      131 ≤ v ∧ v ≤ 609 :=
  servo_sweep_bounded 132 0 (by decide) (by decide)

/-! ### RGB rainbow generator (pca9685-pwm-rgb-led-servos.rs) -/

/-- The `match` arms of `<Rainbow as Iterator>::next`: the RGB triple for a
given (already reduced) hue value.  The final `None` arm corresponds to hue
values above 360. -/
def rgbOfHue (hue : Nat) : Option (Nat × Nat × Nat) :=
  if hue ≤ 59 then some (4080, hue * 68, 0)
  else if hue ≤ 119 then some ((120 - hue) * 68, 4080, 0)
  else if hue ≤ 179 then some (0, 4080, (hue - 120) * 68)
  else if hue ≤ 239 then some (0, (240 - hue) * 68, 4080)
  else if hue ≤ 299 then some ((hue - 240) * 68, 0, 4080)
  else if hue ≤ 360 then some (4080, 0, (360 - hue) * 68)
  else none

/-- `<Rainbow as Iterator>::next`: increment the hue modulo 361, then match
on it; returns the produced triple and the new hue state. -/
def rainbowNext (hue : Nat) : Option (Nat × Nat × Nat) × Nat :=
  ((rgbOfHue ((hue + 1) % 361)), (hue + 1) % 361)

/-- The triple produced by a call to `Rainbow::next` from state `hue`
(defaulting to `(0,0,0)`, which is never needed for hue states below 361). -/
def rainbowTriple (hue : Nat) : Nat × Nat × Nat :=
  ((rainbowNext hue).1).getD (0, 0, 0)

/-- Modelled from the spec: the six piecewise-linear segments of the
hexagonal HSV-to-RGB model at full saturation and value 4080, with 68 value
units per degree of hue and 60 degrees per segment. -/
def hsvRgbSpec (h : Nat) : Nat × Nat × Nat :=
  if h < 60 then (4080, 68 * h, 0)
  else if h < 120 then (68 * (120 - h), 4080, 0)
  else if h < 180 then (0, 4080, 68 * (h - 120))
  else if h < 240 then (0, 68 * (240 - h), 4080)
  else if h < 300 then (68 * (h - 240), 0, 4080)
  else (4080, 0, 68 * (360 - h))

set_option maxRecDepth 100000 in
/-- C2: from every state with hue in `0..=360`, `Rainbow::next` returns
`Some` triple equal to the six-segment hexagonal HSV-to-RGB formula at the
incremented hue, every component is at most 4080, and the triples returned
by consecutive calls (covering consecutive hue values, the segment
boundaries and the 360-to-0 wrap) differ componentwise by at most 68. -/
theorem rainbow_piecewise_bounded_continuous (hue : Nat) (hh : hue ≤ 360) :
    (rainbowNext hue).1 = some (hsvRgbSpec ((hue + 1) % 361)) ∧
    (rainbowTriple hue).1 ≤ 4080 ∧
    (rainbowTriple hue).2.1 ≤ 4080 ∧
    (rainbowTriple hue).2.2 ≤ 4080 ∧
    Nat.dist (rainbowTriple hue).1 (rainbowTriple ((hue + 1) % 361)).1 ≤ 68 ∧
    Nat.dist (rainbowTriple hue).2.1 (rainbowTriple ((hue + 1) % 361)).2.1 ≤ 68 ∧
    Nat.dist (rainbowTriple hue).2.2 (rainbowTriple ((hue + 1) % 361)).2.2 ≤ 68 := by
  revert hh
  revert hue
  decide

/-- Witness for `rainbow_piecewise_bounded_continuous` at hue 0. -/
theorem rainbow_piecewise_witness :
    (rainbowNext 0).1 = some (hsvRgbSpec ((0 + 1) % 361)) ∧
    (rainbowTriple 0).1 ≤ 4080 ∧
    (rainbowTriple 0).2.1 ≤ 4080 ∧
    (rainbowTriple 0).2.2 ≤ 4080 ∧
    Nat.dist (rainbowTriple 0).1 (rainbowTriple ((0 + 1) % 361)).1 ≤ 68 ∧
    Nat.dist (rainbowTriple 0).2.1 (rainbowTriple ((0 + 1) % 361)).2.1 ≤ 68 ∧
    Nat.dist (rainbowTriple 0).2.2 (rainbowTriple ((0 + 1) % 361)).2.2 ≤ 68 :=
  rainbow_piecewise_bounded_continuous 0 (by decide)

/-! ### Melody sequencer (ad9833-midi-player-bp.rs) -/

/-- `MidiTable::NOTES`: the fixed table of `(pitch, note_duration,
silence_duration)` triples. -/
def midiNotes : List (Nat × Nat × Nat) :=
  [(76, 4, 1), (76, 4, 1), (77, 4, 1), (79, 4, 1),
   (79, 4, 1), (77, 4, 1), (76, 4, 1), (74, 4, 1),
   (72, 4, 1), (72, 4, 1), (74, 4, 1), (76, 4, 1),
   (76, 4, 4), (74, 2, 1), (74, 6, 4),
   (76, 4, 1), (76, 4, 1), (77, 4, 1), (79, 4, 1),
   (79, 4, 1), (77, 4, 1), (76, 4, 1), (74, 4, 1),
   (72, 4, 1), (72, 4, 1), (74, 4, 1), (76, 4, 1),
   (74, 4, 4), (72, 2, 1), (72, 6, 4),
   (74, 4, 1), (74, 4, 1), (76, 4, 1), (72, 4, 1),
   (74, 4, 1), (76, 2, 1), (77, 2, 1), (76, 4, 1), (72, 4, 1),
   (74, 4, 1), (76, 2, 1), (77, 2, 1), (76, 4, 1), (74, 4, 1),
   (72, 4, 1), (74, 4, 1), (67, 6, 2),
   (76, 4, 1), (76, 4, 1), (77, 4, 1), (79, 4, 1),
   (79, 4, 1), (77, 4, 1), (76, 4, 1), (74, 4, 1),
   (72, 4, 1), (72, 4, 1), (74, 4, 1), (76, 4, 1),
   (74, 6, 2), (72, 2, 1), (72, 6, 10)]

lemma midiNotes_length : midiNotes.length = 62 := rfl

/-- Lookup into `MidiTable::NOTES`; the code only ever indexes with
`position`, which it keeps below the table length 62. -/
def noteAt (i : Fin 62) : Nat × Nat × Nat :=
  midiNotes.get (i.cast midiNotes_length.symm)

/-- State of `MidiTable`: the current table index and the duration counter.
`MidiTable::default()` is `⟨0, 0⟩`. -/
structure MidiState where
  position : Fin 62
  durationCounter : Nat
  deriving Repr, DecidableEq

/-- `MidiTable::default()`. -/
def midiDefault : MidiState := { position := 0, durationCounter := 0 }

/-- The wrapped successor position `(position + 1) % NOTES.len()`. -/
def advancePos (p : Fin 62) : Fin 62 :=
  ⟨(p.val + 1) % 62, by omega⟩

/-- The in-silence test of `MidiTable::next`:
`duration_counter >= note_duration && duration_counter < total_duration`. -/
def midiInSilence (s : MidiState) : Prop :=
  (noteAt s.position).2.1 ≤ s.durationCounter ∧
    s.durationCounter < (noteAt s.position).2.1 + (noteAt s.position).2.2

instance (s : MidiState) : Decidable (midiInSilence s) := by
  unfold midiInSilence
  infer_instance

/-- `<MidiTable as Iterator>::next`: during the inter-note gap it bumps the
counter and yields `Some(0)`; once past the gap it advances the position
(wrapping) and resets the counter to 1; otherwise it bumps the counter.  In
the non-silent cases it yields the pitch of the (possibly just-advanced)
current entry. -/
def midiNext (s : MidiState) : Option Nat × MidiState :=
  if midiInSilence s then
    (some 0, { s with durationCounter := s.durationCounter + 1 })
  else if (noteAt s.position).2.1 + (noteAt s.position).2.2 ≤ s.durationCounter then
    let p := advancePos s.position
    (some (noteAt p).1, { position := p, durationCounter := 1 })
  else
    (some (noteAt s.position).1,
      { s with durationCounter := s.durationCounter + 1 })

/-- The melody state after `n` calls to `next`. -/
def midiRun : Nat → MidiState → MidiState
  | 0, s => s
  | n + 1, s => midiRun n (midiNext s).2

/-- C3: `MidiTable::next` yields `Some 0` exactly when the duration counter
on entry lies in the current entry's inter-note gap; otherwise it yields the
pitch of the (possibly just-advanced) current entry, and every pitch of the
table is nonzero. -/
theorem midi_silence_exactly_in_gap (s : MidiState) :
    ((midiNext s).1 = some 0 ↔ midiInSilence s) ∧
    (midiInSilence s ∨ (midiNext s).1 = some (noteAt (midiNext s).2.position).1) ∧
    (∀ i : Fin 62, (noteAt i).1 ≠ 0) := by
  have hnz : ∀ i : Fin 62, (noteAt i).1 ≠ 0 := by decide
  refine ⟨⟨?_, ?_⟩, ?_, hnz⟩
  · intro hsome
    by_contra hns
    unfold midiNext at hsome
    rw [if_neg hns] at hsome
    split_ifs at hsome with h2
    · exact hnz _ (Option.some_injective _ hsome)
    · exact hnz _ (Option.some_injective _ hsome)
  · intro hs
    unfold midiNext
    rw [if_pos hs]
  · by_cases hs : midiInSilence s
    · exact Or.inl hs
    · refine Or.inr ?_
      unfold midiNext
      rw [if_neg hs]
      split_ifs <;> rfl

lemma midiNext_pos_of_lt {s : MidiState}
    (h : s.durationCounter < (noteAt s.position).2.1 + (noteAt s.position).2.2) :
    (midiNext s).2 =
      { position := s.position, durationCounter := s.durationCounter + 1 } := by
  unfold midiNext
  by_cases hs : midiInSilence s
  · rw [if_pos hs]
  · rw [if_neg hs, if_neg (by omega)]

lemma midiNext_pos_of_ge {s : MidiState}
    (h : (noteAt s.position).2.1 + (noteAt s.position).2.2 ≤ s.durationCounter) :
    (midiNext s).2 =
      { position := advancePos s.position, durationCounter := 1 } := by
  unfold midiNext
  have hs : ¬ midiInSilence s := by
    unfold midiInSilence
    omega
  rw [if_neg hs, if_pos h]

lemma midiRun_succ (n : Nat) (s : MidiState) :
    midiRun (n + 1) s = midiRun n (midiNext s).2 := rfl

lemma midiRun_add (a b : Nat) (s : MidiState) :
    midiRun (a + b) s = midiRun b (midiRun a s) := by
  induction a generalizing s with
  | zero =>
    rw [Nat.zero_add]
    rfl
  | succ a ih =>
    rw [Nat.succ_add, midiRun_succ, ih]
    rfl

lemma midi_advance_aux : ∀ (m : Nat) (s : MidiState),
    (noteAt s.position).2.1 + (noteAt s.position).2.2 - s.durationCounter ≤ m →
    ∃ k, 1 ≤ k ∧ k ≤ m + 1 ∧
      (∀ j, j < k → (midiRun j s).position = s.position) ∧
      midiRun k s = { position := advancePos s.position, durationCounter := 1 } := by
  intro m
  induction m with
  | zero =>
    intro s hm
    refine ⟨1, le_refl 1, by omega, ?_, ?_⟩
    · intro j hj
      interval_cases j
      rfl
    · rw [midiRun_succ]
      exact midiNext_pos_of_ge (by omega)
  | succ m ih =>
    intro s hm
    by_cases hge : (noteAt s.position).2.1 + (noteAt s.position).2.2 ≤ s.durationCounter
    · refine ⟨1, le_refl 1, by omega, ?_, ?_⟩
      · intro j hj
        interval_cases j
        rfl
      · rw [midiRun_succ]
        exact midiNext_pos_of_ge hge
    · push_neg at hge
      have hstep : (midiNext s).2 =
          { position := s.position, durationCounter := s.durationCounter + 1 } :=
        midiNext_pos_of_lt hge
      have hm' : (noteAt (midiNext s).2.position).2.1 +
          (noteAt (midiNext s).2.position).2.2 - (midiNext s).2.durationCounter ≤ m := by
        rw [hstep]
        show (noteAt s.position).2.1 + (noteAt s.position).2.2 -
          (s.durationCounter + 1) ≤ m
        omega
      obtain ⟨k, hk1, hk2, hkeep, hfinal⟩ := ih (midiNext s).2 hm'
      refine ⟨k + 1, by omega, by omega, ?_, ?_⟩
      · intro j hj
        cases j with
        | zero => rfl
        | succ j' =>
          have hj' : (midiRun j' (midiNext s).2).position = (midiNext s).2.position :=
            hkeep j' (by omega)
          rw [midiRun_succ, hj', hstep]
      · rw [midiRun_succ, hfinal, hstep]

lemma midi_reach_aux : ∀ (d : Nat) (s : MidiState),
    ∃ n, ((midiRun n s).position : Nat) = (s.position.val + d) % 62 := by
  intro d
  induction d with
  | zero =>
    intro s
    refine ⟨0, ?_⟩
    have := s.position.isLt
    show (s.position : Nat) = (s.position.val + 0) % 62
    omega
  | succ d ih =>
    intro s
    obtain ⟨n, hn⟩ := ih s
    obtain ⟨k, hk1, hk2, hkeep, hfinal⟩ :=
      midi_advance_aux
        ((noteAt (midiRun n s).position).2.1 + (noteAt (midiRun n s).position).2.2)
        (midiRun n s) (by omega)
    refine ⟨n + k, ?_⟩
    rw [midiRun_add, hfinal]
    show ((midiRun n s).position.val + 1) % 62 = (s.position.val + (d + 1)) % 62
    omega

/-- C4: each call to `MidiTable::next` either keeps the position or advances
it by exactly one modulo 62; from every state the position advances within
`note_duration + silence_duration + 1` calls (staying put until then); hence
every table index is eventually reached from any start. -/
theorem midi_position_cyclic (s : MidiState) :
    ((midiNext s).2.position = s.position ∨
      (midiNext s).2.position = advancePos s.position) ∧
    (∃ k, 1 ≤ k ∧ k ≤ (noteAt s.position).2.1 + (noteAt s.position).2.2 + 1 ∧
      (∀ j, j < k → (midiRun j s).position = s.position) ∧
      (midiRun k s).position = advancePos s.position) ∧
    (∀ target : Fin 62, ∃ n, (midiRun n s).position = target) := by
  refine ⟨?_, ?_, ?_⟩
  · by_cases hge :
      (noteAt s.position).2.1 + (noteAt s.position).2.2 ≤ s.durationCounter
    · right
      rw [midiNext_pos_of_ge hge]
    · left
      rw [midiNext_pos_of_lt (by omega)]
  · obtain ⟨k, h1, h2, h3, h4⟩ :=
      midi_advance_aux ((noteAt s.position).2.1 + (noteAt s.position).2.2) s
        (by omega)
    exact ⟨k, h1, h2, h3, by rw [h4]⟩
  · intro target
    obtain ⟨n, hn⟩ := midi_reach_aux (target.val + 62 - s.position.val) s
    refine ⟨n, Fin.ext ?_⟩
    rw [hn]
    have h1 := s.position.isLt
    have h2 := target.isLt
    omega

set_option maxRecDepth 100000 in
lemma rgbOfHue_isSome : ∀ h : Nat, h < 361 → (rgbOfHue h).isSome = true := by
  decide

/-- C8: the three generators are total at the iterator interface: from every
state (any table index and counter for `MidiTable`, any `u16` hue for
`Rainbow`, any state for `Servo`) `next` returns `Some`; in particular the
`Rainbow` match's `None` arm is unreachable because the hue is reduced
modulo 361 first, and the `unwrap_or(0)` applied to `MidiTable::next` in the
player's main loop never falls back to its default. -/
theorem generators_total (s : MidiState) (sv : ServoState) (hue : Nat)
    (_hh : hue < 65536) :
    ((midiNext s).1).isSome = true ∧
    ((rainbowNext hue).1).isSome = true ∧
    ((servoNext sv).1).isSome = true ∧
    ∃ t, (midiNext s).1 = some t ∧ ((midiNext s).1).getD 0 = t := by
  have hmidi : ∃ t, (midiNext s).1 = some t := by
    unfold midiNext
    split_ifs <;> exact ⟨_, rfl⟩
  obtain ⟨t, ht⟩ := hmidi
  refine ⟨by rw [ht]; rfl, ?_, rfl, ⟨t, ht, by rw [ht]; rfl⟩⟩
  have hmod : (hue + 1) % 361 < 361 := Nat.mod_lt _ (by omega)
  exact rgbOfHue_isSome _ hmod

/-- Witness for `generators_total` from the default melody state, a servo at
the minimum pulse width and hue 0. -/
theorem generators_total_witness :
    ((midiNext midiDefault).1).isSome = true ∧
    ((rainbowNext 0).1).isSome = true ∧
    ((servoNext (servoNew 132)).1).isSome = true ∧
    ∃ t, (midiNext midiDefault).1 = some t ∧
      ((midiNext midiDefault).1).getD 0 = t :=
  generators_total midiDefault (servoNew 132) 0 (by decide)

/-! ### Error-handling policy of the display-loop examples -/

/-- Rust `Result::unwrap_or`: the sentinel-substituting read sites. -/
def unwrapOr {ε α : Type} (r : Except ε α) (d : α) : α :=
  match r with
  | .ok v => v
  | .error _ => d

/-- Rust `Result::unwrap` at fatal call sites: `none` models the panic that
terminates the program. -/
def rustUnwrap {ε α : Type} (r : Except ε α) : Option α :=
  match r with
  | .ok v => some v
  | .error _ => none

/-- The temperature value used by the `tmp112-display-f3` loop body:
`tmp112.read_temperature().unwrap_or(500.0)`.  Temperatures (`f32` in the
source) are modelled as rationals; `500.0` is exactly representable. -/
def tmp112DisplayedTemp {ε : Type} (r : Except ε ℚ) : ℚ :=
  unwrapOr r 500

/-- The four channel values read by the `ads1015-adc-display` loop body:
each is `block!(adc.read(..)).unwrap_or(8091)`. -/
def ads1015ChannelValues {ε : Type} (r0 r1 r2 r3 : Except ε Int) :
    Int × Int × Int × Int :=
  (unwrapOr r0 8091, unwrapOr r1 8091, unwrapOr r2 8091, unwrapOr r3 8091)

/-- The four channel values read by the `ads1015-adc-display-bp` (bluepill)
loop body, identical sentinel handling. -/
def ads1015BpChannelValues {ε : Type} (r0 r1 r2 r3 : Except ε Int) :
    Int × Int × Int × Int :=
  (unwrapOr r0 8091, unwrapOr r1 8091, unwrapOr r2 8091, unwrapOr r3 8091)

/-- A channel value used by the `tcs3472-color-display-f3` loop body: each of
the clear/red/green/blue reads is `read_*_channel().unwrap_or(0)`. -/
def tcs3472ChannelValue {ε : Type} (r : Except ε Nat) : Nat :=
  unwrapOr r 0

/-- C5: in the sentinel-substituting read loops a failed read never panics:
the TMP112 site uses 500 and the ADS1015 sites (both boards) use 8091 on
failure, and on success each site uses the read value unchanged; being total
functions of the read result, the loop bodies continue either way. -/
theorem sentinel_reads_continue {ε : Type} (e : ε) (t : ℚ) (v : Int)
    (ra rb rc : Except ε Int) :
    tmp112DisplayedTemp (Except.error e : Except ε ℚ) = 500 ∧
    tmp112DisplayedTemp (Except.ok t : Except ε ℚ) = t ∧
    (ads1015ChannelValues (Except.error e) ra rb rc).1 = 8091 ∧
    (ads1015ChannelValues ra (Except.error e) rb rc).2.1 = 8091 ∧
    (ads1015ChannelValues ra rb (Except.error e) rc).2.2.1 = 8091 ∧
    (ads1015ChannelValues ra rb rc (Except.error e)).2.2.2 = 8091 ∧
    (ads1015ChannelValues (Except.ok v) ra rb rc).1 = v ∧
    (ads1015ChannelValues ra (Except.ok v) rb rc).2.1 = v ∧
    (ads1015ChannelValues ra rb (Except.ok v) rc).2.2.1 = v ∧
    (ads1015ChannelValues ra rb rc (Except.ok v)).2.2.2 = v ∧
    (ads1015BpChannelValues (Except.error e) ra rb rc).1 = 8091 ∧
    (ads1015BpChannelValues ra (Except.error e) rb rc).2.1 = 8091 ∧
    (ads1015BpChannelValues ra rb (Except.error e) rc).2.2.1 = 8091 ∧
    (ads1015BpChannelValues ra rb rc (Except.error e)).2.2.2 = 8091 ∧
    (ads1015BpChannelValues (Except.ok v) ra rb rc).1 = v ∧
    (ads1015BpChannelValues ra (Except.ok v) rb rc).2.1 = v ∧
    (ads1015BpChannelValues ra rb (Except.ok v) rc).2.2.1 = v ∧
    (ads1015BpChannelValues ra rb rc (Except.ok v)).2.2.2 = v := by
  refine ⟨rfl, rfl, rfl, rfl, rfl, rfl, rfl, rfl, rfl, rfl,
    rfl, rfl, rfl, rfl, rfl, rfl, rfl, rfl⟩

/-- Modelled from the spec: the ADS1015 driver (external crate `ads1x1x`,
not part of this repository) returns a sign-extended 12-bit conversion code,
so a successful read lies in `[-2048, 2047]`. -/
def ads1015ReadRange (v : Int) : Prop :=
  -2048 ≤ v ∧ v ≤ 2047

/-- Modelled from the spec: the TMP112 driver (external crate `tmp1x2`, not
part of this repository) converts a 12-bit two's-complement register at
0.0625 °C per count, so a successful read lies in `[-128, 2047/16]` °C. -/
def tmp112ReadRange (t : ℚ) : Prop :=
  -128 ≤ t ∧ t ≤ 2047 / 16

/-- Modelled from the spec: the TCS3472 driver (external crate `tcs3472`,
not part of this repository) returns raw 16-bit channel counts, so a
successful read lies in `[0, 65535]`; a dark scene legitimately reads 0. -/
def tcs3472ReadRange (v : Nat) : Prop :=
  v ≤ 65535

/-- C6 counterexample: the TCS3472 read sites substitute 0 on failure, and 0
lies inside the range of successful reads (a fully dark reading), so that
sentinel is not out-of-range. -/
theorem sentinel_range_counterexample :
    tcs3472ChannelValue (Except.error () : Except Unit Nat) = 0 ∧
    tcs3472ReadRange 0 := by
  exact ⟨rfl, by unfold tcs3472ReadRange; omega⟩

/-- C6 (amended): the ADS1015 sentinel 8091 and the TMP112 sentinel 500 lie
outside the respective ranges of successful reads, but the TCS3472 sentinel
0 lies inside the successful-read range and is indistinguishable from a
valid dark reading. -/
theorem sentinel_ranges {ε : Type} (e : ε) :
    tmp112DisplayedTemp (Except.error e : Except ε ℚ) = 500 ∧
    ¬ tmp112ReadRange 500 ∧
    (ads1015ChannelValues (Except.error e) (Except.error e) (Except.error e)
      (Except.error e) : Int × Int × Int × Int) = (8091, 8091, 8091, 8091) ∧
    ¬ ads1015ReadRange 8091 ∧
    tcs3472ChannelValue (Except.error e : Except ε Nat) = 0 ∧
    tcs3472ReadRange 0 := by
  refine ⟨rfl, ?_, rfl, ?_, rfl, ?_⟩
  · unfold tmp112ReadRange
    norm_num
  · unfold ads1015ReadRange
    omega
  · unfold tcs3472ReadRange
    omega

/-- `disp.init().unwrap(); disp.flush().unwrap()` before the loops. -/
def displayInitSequence {ε : Type} (rInit rFlush : Except ε Unit) : Option Unit :=
  match rustUnwrap rInit with
  | none => none
  | some _ => rustUnwrap rFlush

/-- Position update at the bottom of the `mcp42x-ads1115-display-f3` loop. -/
def mcp42xNextPos (position : Nat) : Nat :=
  if 248 ≤ position then 0 else position + 8

/-- The fatal calls of the `mcp42x-ads1115-display-f3` loop body: the two
`set_position(..).unwrap()` calls, the two blocking ADC reads (`unwrap`),
the `>> 5` scaling (an arithmetic shift on `i16`, i.e. flooring division by
32) and the position update. -/
def mcp42xLoopStep {ε : Type} (position : Nat)
    (rSet0 rSet1 : Except ε Unit) (rAdc0 rAdc1 : Except ε Int) :
    Option (Int × Int × Nat) :=
  match rustUnwrap rSet0 with
  | none => none
  | some _ =>
    match rustUnwrap rSet1 with
    | none => none
    | some _ =>
      match rustUnwrap rAdc0 with
      | none => none
      | some v0 =>
        match rustUnwrap rAdc1 with
        | none => none
        | some v1 => some (Int.fdiv v0 32, Int.fdiv v1 32, mcp42xNextPos position)

/-- The fatal synthesizer calls of `ad9833-midi-player-bp`: `reset`, then
per-iteration `set_frequency` and `select_frequency`, all `unwrap`ped. -/
def ad9833SynthSequence {ε : Type} (rReset rSetF rSelF : Except ε Unit) :
    Option Unit :=
  match rustUnwrap rReset with
  | none => none
  | some _ =>
    match rustUnwrap rSetF with
    | none => none
    | some _ => rustUnwrap rSelF

/-- The fatal PWM calls of `pca9685-pwm-rgb-led-servos`: `enable`, then
per-iteration `set_all_on_off`, both `unwrap`ped. -/
def pca9685Sequence {ε : Type} (rEnable rSetAll : Except ε Unit) : Option Unit :=
  match rustUnwrap rEnable with
  | none => none
  | some _ => rustUnwrap rSetAll

/-- C7: at every listed fatal call site (display init/flush, digipot
`set_position`, the MCP42x example's ADC reads, synthesizer
reset/set_frequency/select_frequency, PWM enable/set_all_on_off) an error
result terminates the program (models as `none`), while all-ok runs
continue with the computed values. -/
theorem unwrap_sites_fatal {ε : Type} (e : ε) (r r2 r3 r4 : Except ε Unit)
    (ra rb : Except ε Int) (v0 v1 : Int) (pos : Nat) :
    displayInitSequence (Except.error e) r = none ∧
    displayInitSequence (Except.ok ()) (Except.error e : Except ε Unit) = none ∧
    displayInitSequence (Except.ok ()) (Except.ok () : Except ε Unit) = some () ∧
    mcp42xLoopStep pos (Except.error e) r2 ra rb = none ∧
    mcp42xLoopStep pos (Except.ok ()) (Except.error e) ra rb = none ∧
    mcp42xLoopStep pos (Except.ok ()) (Except.ok ()) (Except.error e) rb = none ∧
    mcp42xLoopStep pos (Except.ok ()) (Except.ok ()) (Except.ok v0)
      (Except.error e) = none ∧
    mcp42xLoopStep pos (Except.ok () : Except ε Unit) (Except.ok ())
      (Except.ok v0) (Except.ok v1) =
      some (Int.fdiv v0 32, Int.fdiv v1 32, mcp42xNextPos pos) ∧
    ad9833SynthSequence (Except.error e) r3 r4 = none ∧
    ad9833SynthSequence (Except.ok ()) (Except.error e) r4 = none ∧
    ad9833SynthSequence (Except.ok ()) (Except.ok ())
      (Except.error e : Except ε Unit) = none ∧
    ad9833SynthSequence (Except.ok ()) (Except.ok ())
      (Except.ok () : Except ε Unit) = some () ∧
    pca9685Sequence (Except.error e) r = none ∧
    pca9685Sequence (Except.ok ()) (Except.error e : Except ε Unit) = none ∧
    pca9685Sequence (Except.ok ()) (Except.ok () : Except ε Unit) = some () := by
  refine ⟨rfl, rfl, rfl, rfl, rfl, rfl, rfl, rfl, rfl, rfl, rfl, rfl, rfl,
    rfl, rfl⟩

/-! ### PCA9685 main-loop channel writes (pca9685-pwm-rgb-led-servos.rs) -/

/-- The on-times array passed to `set_all_on_off`: the literal `[0; 16]`. -/
def pcaOnTimes : Fin 16 → Nat := fun _ => 0

/-- One servo write of the loop: `if let Some(v) = servo.next()` writes `v`
into the given slot, otherwise leaves the array unchanged. -/
def pcaServoWrite (servoOut : Option Nat) (idx : Fin 16) (vs : Fin 16 → Nat) :
    Fin 16 → Nat :=
  match servoOut with
  | some v => Function.update vs idx v
  | none => vs

/-- The body of the `pca9685` main loop acting on the `values` array: under
`if let Some((r, g, b)) = rainbow.next()` it writes the darkened RGB values
into slots 0..=2, their complements against `4080 >> 5` into slots 3..=5
(a `u16` subtraction, modelled by truncated `Nat` subtraction, which cannot
underflow for rainbow outputs), and the five servo outputs into slots
10..=14. -/
def pcaLoopBody (values : Fin 16 → Nat) (rainbowOut : Option (Nat × Nat × Nat))
    (servoOuts : Fin 5 → Option Nat) : Fin 16 → Nat :=
  match rainbowOut with
  | none => values
  | some (r, g, b) =>
    let r5 := r >>> 5
    let g5 := g >>> 5
    let b5 := b >>> 5
    let v0 := Function.update values ⟨0, by omega⟩ r5
    let v1 := Function.update v0 ⟨1, by omega⟩ g5
    let v2 := Function.update v1 ⟨2, by omega⟩ b5
    let v3 := Function.update v2 ⟨3, by omega⟩ ((4080 >>> 5) - r5)
    let v4 := Function.update v3 ⟨4, by omega⟩ ((4080 >>> 5) - g5)
    let v5 := Function.update v4 ⟨5, by omega⟩ ((4080 >>> 5) - b5)
    let w0 := pcaServoWrite (servoOuts ⟨0, by omega⟩) ⟨10, by omega⟩ v5
    let w1 := pcaServoWrite (servoOuts ⟨1, by omega⟩) ⟨11, by omega⟩ w0
    let w2 := pcaServoWrite (servoOuts ⟨2, by omega⟩) ⟨12, by omega⟩ w1
    let w3 := pcaServoWrite (servoOuts ⟨3, by omega⟩) ⟨13, by omega⟩ w2
    pcaServoWrite (servoOuts ⟨4, by omega⟩) ⟨14, by omega⟩ w3

/-- The `values` array after `n` loop iterations, starting from the literal
`[0; 16]`, given the per-iteration rainbow and servo outputs. -/
def pcaRun (ros : Nat → Option (Nat × Nat × Nat))
    (sos : Nat → Fin 5 → Option Nat) : Nat → Fin 16 → Nat
  | 0 => fun _ => 0
  | n + 1 => pcaLoopBody (pcaRun ros sos n) (ros n) (sos n)

lemma pcaServoWrite_frame (o : Option Nat) (idx : Fin 16) (vs : Fin 16 → Nat)
    (i : Fin 16) (h : i ≠ idx) : pcaServoWrite o idx vs i = vs i := by
  cases o with
  | none => rfl
  | some v => exact Function.update_noteq h v vs

lemma pcaLoopBody_frame (values : Fin 16 → Nat) (ro : Option (Nat × Nat × Nat))
    (so : Fin 5 → Option Nat) (i : Fin 16)
    (h : i.val = 6 ∨ i.val = 7 ∨ i.val = 8 ∨ i.val = 9 ∨ i.val = 15) :
    pcaLoopBody values ro so i = values i := by
  cases ro with
  | none => rfl
  | some rgb =>
    obtain ⟨r, g, b⟩ := rgb
    show pcaServoWrite (so ⟨4, by omega⟩) ⟨14, by omega⟩ _ i = values i
    rw [pcaServoWrite_frame _ _ _ _ (Fin.ne_of_val_ne (show i.val ≠ 14 by omega))]
    rw [pcaServoWrite_frame _ _ _ _ (Fin.ne_of_val_ne (show i.val ≠ 13 by omega))]
    rw [pcaServoWrite_frame _ _ _ _ (Fin.ne_of_val_ne (show i.val ≠ 12 by omega))]
    rw [pcaServoWrite_frame _ _ _ _ (Fin.ne_of_val_ne (show i.val ≠ 11 by omega))]
    rw [pcaServoWrite_frame _ _ _ _ (Fin.ne_of_val_ne (show i.val ≠ 10 by omega))]
    rw [Function.update_noteq (Fin.ne_of_val_ne (show i.val ≠ 5 by omega))]
    rw [Function.update_noteq (Fin.ne_of_val_ne (show i.val ≠ 4 by omega))]
    rw [Function.update_noteq (Fin.ne_of_val_ne (show i.val ≠ 3 by omega))]
    rw [Function.update_noteq (Fin.ne_of_val_ne (show i.val ≠ 2 by omega))]
    rw [Function.update_noteq (Fin.ne_of_val_ne (show i.val ≠ 1 by omega))]
    rw [Function.update_noteq (Fin.ne_of_val_ne (show i.val ≠ 0 by omega))]

/-- C9: the loop body writes only slots 0..=5 and 10..=14 of the 16-entry
`values` array: slots 6, 7, 8, 9 and 15 are preserved by every iteration,
hence stay 0 forever from the all-zero initial array, and the on-times
array passed to `set_all_on_off` is identically 0. -/
theorem pca_untouched_channels (ros : Nat → Option (Nat × Nat × Nat))
    (sos : Nat → Fin 5 → Option Nat) (n : Nat) (values : Fin 16 → Nat)
    (ro : Option (Nat × Nat × Nat)) (so : Fin 5 → Option Nat) (i : Fin 16)
    (h : i.val = 6 ∨ i.val = 7 ∨ i.val = 8 ∨ i.val = 9 ∨ i.val = 15) :
    pcaLoopBody values ro so i = values i ∧
    pcaRun ros sos n i = 0 ∧
    pcaOnTimes i = 0 := by
  refine ⟨pcaLoopBody_frame values ro so i h, ?_, rfl⟩
  induction n with
  | zero => rfl
  | succ n ih =>
    show pcaLoopBody (pcaRun ros sos n) (ros n) (sos n) i = 0
    rw [pcaLoopBody_frame _ _ _ _ h, ih]

/-- Witness for `pca_untouched_channels` at slot 6 after one iteration. -/
theorem pca_untouched_channels_witness :
    pcaLoopBody (fun _ => 0) none (fun _ => none) ⟨6, by omega⟩ =
      (fun _ : Fin 16 => (0 : Nat)) ⟨6, by omega⟩ ∧
    pcaRun (fun _ => none) (fun _ _ => none) 1 ⟨6, by omega⟩ = 0 ∧
    pcaOnTimes ⟨6, by omega⟩ = 0 :=
  pca_untouched_channels (fun _ => none) (fun _ _ => none) 1 (fun _ => 0)
    none (fun _ => none) ⟨6, by omega⟩ (Or.inl rfl)

/-! ### MCP42x position counter (mcp42x-ads1115-display-f3.rs) -/

/-- The loop-counter value of the `mcp42x` example before iteration `n`:
starts at 0 and steps by `mcp42xNextPos` at the bottom of each iteration. -/
def mcp42xPosAt : Nat → Nat
  | 0 => 0
  | n + 1 => mcp42xNextPos (mcp42xPosAt n)

/-- C10: the `mcp42x` loop counter always lies in `{0, 8, 16, ..., 248}`,
so both arguments passed to `set_position` (`position` and
`255 - position`) fit in a `u8` and the subtraction `255 - position` never
underflows. -/
theorem mcp42x_position_invariant (n : Nat) :
    mcp42xPosAt n % 8 = 0 ∧ mcp42xPosAt n ≤ 248 ∧
    (∃ k, k ≤ 31 ∧ mcp42xPosAt n = 8 * k) ∧
    mcp42xPosAt n ≤ 255 ∧ 255 - mcp42xPosAt n ≤ 255 := by
  have key : mcp42xPosAt n % 8 = 0 ∧ mcp42xPosAt n ≤ 248 := by
    induction n with
    | zero => exact ⟨rfl, by decide⟩
    | succ n ih =>
      obtain ⟨h1, h2⟩ := ih
      show mcp42xNextPos (mcp42xPosAt n) % 8 = 0 ∧
        mcp42xNextPos (mcp42xPosAt n) ≤ 248
      unfold mcp42xNextPos
      split_ifs with hge
      · exact ⟨rfl, by omega⟩
      · exact ⟨by omega, by omega⟩
  obtain ⟨h1, h2⟩ := key
  exact ⟨h1, h2, ⟨mcp42xPosAt n / 8, by omega, by omega⟩, by omega, by omega⟩
